import Mathlib

/-!
Verification of the Lottie→MP4 conversion pipeline (`src/services/converter.ts`)
against its natural-language specification.

The TypeScript source is shallowly embedded: pure helpers become Lean
functions over `ℚ`/`ℤ`/`ℕ` (JS numbers that only ever hold exact values are
modelled as rationals), and the effectful body of `renderAndConvert` becomes a
function from an explicit environment (platform capabilities, probe outcome,
per-frame render-surface availability) to an event trace plus an
`Except`-style result.
-/

/-- The string values of the TypeScript `Resolution` enum (`src/types`):
`HD = '720p'`, `FHD = '1080p'`, `UHD = '4K'`.  At runtime the enum members are
plain strings, so the embedding uses `String`. -/
def Resolution.HD : String := "720p"

def Resolution.FHD : String := "1080p"

def Resolution.UHD : String := "4K"

/-- The fields of a parsed Lottie document consumed by the converter
(`LottieFile` in `src/types`): declared frame rate `fr`, in/out points
`ip`/`op`, intrinsic pixel size `w`/`h`.  The layer and asset lists are opaque
to the conversion pipeline and are omitted. -/
structure LottieFile where
  fr : ℚ
  ip : ℚ
  op : ℚ
  w : ℤ
  h : ℤ
deriving DecidableEq, Repr

/-- `ConvertOptions` from `src/types`: a resolution class (runtime string) and
a target output frame rate. -/
structure ConvertOptions where
  resolution : String
  fps : ℕ
deriving DecidableEq, Repr

/-- `getDimensions` from `src/services/converter.ts` lines 5–29: a `switch` on
the resolution string whose fall-through keeps the initial 1920×1080, followed
by decrementing any odd dimension. -/
def getDimensions (res : String) (originalW originalH : ℤ) : ℤ × ℤ :=
  let targetW : ℤ := 1920
  let targetH : ℤ := 1080
  let wh : ℤ × ℤ :=
    if res = Resolution.HD then (1280, 720)
    else if res = Resolution.FHD then (1920, 1080)
    else if res = Resolution.UHD then (3840, 2160)
    else (targetW, targetH)
  let targetW := if wh.1 % 2 ≠ 0 then wh.1 - 1 else wh.1
  let targetH := if wh.2 % 2 ≠ 0 then wh.2 - 1 else wh.2
  (targetW, targetH)

/-- Modelled from the spec: the lottie-web `AnimationItem` (an external
library, not part of this repository) exposes `totalFrames`, the playable
source frame count; §4.2 of the spec fixes `sourceTotalFrames = outPoint −
inPoint`. -/
def animTotalFrames (animationData : LottieFile) : ℚ :=
  animationData.op - animationData.ip

/-- `const fr = anim.frameRate || 30` (line 103): lottie-web reports the
document's declared frame rate; the JS `||` falls back to 30 when it is falsy
(0). -/
def frameRateEff (animationData : LottieFile) : ℚ :=
  if animationData.fr = 0 then 30 else animationData.fr

/-- `durationSeconds = anim.totalFrames / fr` (line 104). -/
def durationSeconds (animationData : LottieFile) : ℚ :=
  animTotalFrames animationData / frameRateEff animationData

/-- `totalOutputFrames = Math.ceil(durationSeconds * fps)` (line 105). -/
def totalOutputFrames (animationData : LottieFile) (fps : ℕ) : ℤ :=
  ⌈durationSeconds animationData * (fps : ℚ)⌉

/-- `const lottieFrame = (i / totalOutputFrames) * anim.totalFrames`
(line 167): the source sample time of output frame `i`. -/
def lottieFrame (i total : ℕ) (sourceTotalFrames : ℚ) : ℚ :=
  ((i : ℚ) / (total : ℚ)) * sourceTotalFrames

/-- `const frameIntervalMicroseconds = 1_000_000 / fps` (line 161). -/
def frameIntervalMicroseconds (fps : ℕ) : ℚ :=
  1000000 / (fps : ℚ)

/-- `const timestamp = Math.round(i * frameIntervalMicroseconds)` (line 204);
`Math.round` is round-half-up, matching Mathlib's `round`. -/
def timestamp (i fps : ℕ) : ℤ :=
  round ((i : ℚ) * frameIntervalMicroseconds fps)

/-- `const keyFrame = i % (fps * 2) === 0` (line 207). -/
def keyFrame (i fps : ℕ) : Bool :=
  i % (fps * 2) = 0

/-- `const pct = 10 + Math.round((i / totalOutputFrames) * 85)` (line 213). -/
def loopPct (i total : ℕ) : ℤ :=
  10 + round (((i : ℚ) / (total : ℚ)) * 85)

/-- An encoder configuration as built in `renderAndConvert` lines 133–147. -/
structure EncoderConfig where
  codec : String
  width : ℤ
  height : ℤ
  bitrate : ℕ
  framerate : ℕ
deriving DecidableEq, Repr

/-- `highProfileConfig` (lines 133–139): H.264 High Profile, bitrate 40 Mb/s
for UHD and 15 Mb/s otherwise. -/
def highProfileConfig (resolution : String) (w h : ℤ) (fps : ℕ) : EncoderConfig :=
  { codec := "avc1.640033"
    width := w
    height := h
    bitrate := if resolution = Resolution.UHD then 40000000 else 15000000
    framerate := fps }

/-- `mainProfileConfig` (lines 141–147): the baseline fallback, fixed
10 Mb/s. -/
def mainProfileConfig (w h : ℤ) (fps : ℕ) : EncoderConfig :=
  { codec := "avc1.4d002a"
    width := w
    height := h
    bitrate := 10000000
    framerate := fps }

/-- Outcome of `VideoEncoder.isConfigSupported(highProfileConfig)`: either a
support report, or the probe itself throwing. -/
inductive ProbeResult where
  | ok (supported : Bool)
  | exn
deriving DecidableEq, Repr

/-- Lines 149–155: `selectedConfig` starts as the main profile; inside a
`try`, a successful probe reporting `supported` switches it to the high
profile; a throwing probe is caught and only logged. -/
def selectConfig (resolution : String) (w h : ℤ) (fps : ℕ)
    (probe : ProbeResult) : EncoderConfig :=
  match probe with
  | .ok true => highProfileConfig resolution w h fps
  | .ok false => mainProfileConfig w h fps
  | .exn => mainProfileConfig w h fps

/-- The typed error surface of one conversion call, matching the `throw`
sites in `renderAndConvert`. -/
inductive ConvError where
  | encodingUnsupported
  | canvasContextFailed
  | invalidDuration
  | renderSurfaceMissing
deriving DecidableEq, Repr

/-- Observable events of one conversion call, in program order: DOM resource
acquisition/release, per-frame rasterization and encode submission, progress
callbacks, and container finalization. -/
inductive Event where
  | containerAdded
  | containerRemoved
  | animCreated
  | animDestroyed
  | rasterize (i : ℕ)
  | encode (i : ℕ) (ts : ℤ) (key : Bool)
  | configured (cfg : EncoderConfig)
  | progress (msg : String) (percent : ℤ)
  | finalized
deriving DecidableEq, Repr

/-- The platform/environment a conversion call runs against: whether the
WebCodecs `VideoEncoder` global exists, whether a 2d canvas context can be
created, the outcome of the support probe, and whether the lottie renderer
has produced an `<svg>` root by the time frame `i` is sampled. -/
structure Env where
  hasVideoEncoder : Bool
  canvasCtxOk : Bool
  probe : ProbeResult
  svgFound : ℕ → Bool

/-- Progress message of line 214, `Processing frame ${i+1}/${total}`. -/
def processingFrameMsg (i total : ℕ) : String :=
  "Processing frame " ++ toString (i + 1) ++ "/" ++ toString total

/-- Progress message of line 109. -/
def initMsg (options : ConvertOptions) : String :=
  "Initializing High-Fidelity Encoder (" ++ options.resolution ++ " @ "
    ++ toString options.fps ++ "fps)..."

/-- Progress message of line 159. -/
def processingMsg (total : ℕ) : String :=
  "Processing " ++ toString total ++ " frames (SVG Mode)..."

/-- Events of one successful loop iteration `i` (lines 164–218): seek and
rasterize, submit to the encoder with timestamp and keyframe flag, and — on
every 5th frame or the final frame — emit a progress callback. -/
def frameEvents (fps total i : ℕ) : List Event :=
  [.rasterize i, .encode i (timestamp i fps) (keyFrame i fps)]
    ++ (if i % 5 = 0 ∨ i = total - 1
        then [.progress (processingFrameMsg i total) (loopPct i total)]
        else [])

/-- The `for` loop of lines 164–218, recursing on the number of remaining
iterations: each iteration first seeks, then fails with
`renderSurfaceMissing` if no `<svg>` root is present (line 172), otherwise
rasterizes, encodes and reports. -/
def encodeLoopAux (fps total : ℕ) (svgFound : ℕ → Bool) :
    ℕ → ℕ → List Event × Except ConvError Unit
  | 0, _ => ([], .ok ())
  | fuel + 1, i =>
    if svgFound i then
      let rest := encodeLoopAux fps total svgFound fuel (i + 1)
      (frameEvents fps total i ++ rest.1, rest.2)
    else
      ([], .error .renderSurfaceMissing)

/-- The `for` loop of lines 164–218 from index `i` up to `total`: it has
`total - i` iterations left. -/
def encodeLoop (fps total : ℕ) (svgFound : ℕ → Bool) (i : ℕ) :
    List Event × Except ConvError Unit :=
  encodeLoopAux fps total svgFound (total - i) i

/-- The `try` body of `renderAndConvert` (lines 102–228): timing plan and
`InvalidDuration` check, first progress call, encoder negotiation and
configuration, second progress call, the encode loop, and on success the
final progress call, flush and container finalization. -/
def convertBody (animationData : LottieFile) (options : ConvertOptions)
    (env : Env) (w h : ℤ) : List Event × Except ConvError Unit :=
  let n := totalOutputFrames animationData options.fps
  if n ≤ 0 then ([], .error .invalidDuration)
  else
    let total := n.toNat
    let cfg := selectConfig options.resolution w h options.fps env.probe
    let pre := [Event.progress (initMsg options) 5, Event.configured cfg,
      Event.progress (processingMsg total) 10]
    let loop := encodeLoop options.fps total env.svgFound 0
    match loop.2 with
    | .error e => (pre ++ loop.1, .error e)
    | .ok _ =>
      (pre ++ loop.1 ++ [Event.progress "Finalizing Video..." 98, Event.finalized],
        .ok ())

/-- `renderAndConvert` (lines 41–239) as a trace semantics: resolve
dimensions; fail fast with `encodingUnsupported` when `VideoEncoder` is
absent (line 49, before any DOM resource is created); create the hidden
container; on canvas-context failure remove the container and fail
(lines 74–77); create the lottie animation; run the `try` body; and in all
cases after that point run the `finally` block (lines 233–238), destroying
the animation and removing the container. -/
def renderAndConvert (animationData : LottieFile) (options : ConvertOptions)
    (env : Env) : List Event × Except ConvError Unit :=
  let d := getDimensions options.resolution animationData.w animationData.h
  if env.hasVideoEncoder then
    if env.canvasCtxOk then
      let body := convertBody animationData options env d.1 d.2
      ([Event.containerAdded, Event.animCreated] ++ body.1
        ++ [Event.animDestroyed, Event.containerRemoved], body.2)
    else
      ([Event.containerAdded, Event.containerRemoved], .error .canvasContextFailed)
  else
    ([], .error .encodingUnsupported)

/-- The percent arguments of the progress callbacks in a trace, in emission
order. -/
def progressPercentsOf (evts : List Event) : List ℤ :=
  evts.filterMap fun e =>
    match e with
    | .progress _ p => some p
    | _ => none

/-- The timestamps of the frames submitted to the encoder in a trace, in
submission order. -/
def encodeTimestampsOf (evts : List Event) : List ℤ :=
  evts.filterMap fun e =>
    match e with
    | .encode _ ts _ => some ts
    | _ => none

/-- `getDimensions` takes one of exactly four values, depending only on the
resolution string. -/
lemma getDimensions_cases (res : String) (w h : ℤ) :
    getDimensions res w h = (1280, 720) ∨ getDimensions res w h = (1920, 1080)
      ∨ getDimensions res w h = (3840, 2160) := by
  by_cases h1 : res = Resolution.HD
  · subst h1; exact Or.inl rfl
  · by_cases h2 : res = Resolution.FHD
    · subst h2; exact Or.inr (Or.inl rfl)
    · by_cases h3 : res = Resolution.UHD
      · subst h3; exact Or.inr (Or.inr rfl)
      · refine Or.inr (Or.inl ?_)
        simp [getDimensions, h1, h2, h3]

/-- C5: the dimension resolver maps every resolution class exactly per the
fixed table HD→1280×720, FHD→1920×1080, UHD→3840×2160, decrements an odd
dimension by one, and always returns even, positive width and height; it is a
total function with no error conditions. -/
theorem getDimensions_spec :
    (∀ w h : ℤ, getDimensions Resolution.HD w h = (1280, 720)) ∧
    (∀ w h : ℤ, getDimensions Resolution.FHD w h = (1920, 1080)) ∧
    (∀ w h : ℤ, getDimensions Resolution.UHD w h = (3840, 2160)) ∧
    (∀ (res : String) (w h : ℤ),
      0 < (getDimensions res w h).1 ∧ 0 < (getDimensions res w h).2 ∧
      (getDimensions res w h).1 % 2 = 0 ∧ (getDimensions res w h).2 % 2 = 0) := by
  refine ⟨fun w h => rfl, fun w h => rfl, fun w h => rfl, fun res w h => ?_⟩
  rcases getDimensions_cases res w h with hc | hc | hc <;> rw [hc] <;> refine ⟨?_, ?_, ?_, ?_⟩ <;> decide

/-- C10: the resolved output dimensions depend only on the resolution class —
the intrinsic document dimensions are ignored — and any resolution value
outside the three enum strings yields the FHD default 1920×1080. -/
theorem getDimensions_independent :
    (∀ (res : String) (w1 h1 w2 h2 : ℤ),
      getDimensions res w1 h1 = getDimensions res w2 h2) ∧
    (∀ (res : String) (w h : ℤ),
      res ≠ Resolution.HD → res ≠ Resolution.FHD → res ≠ Resolution.UHD →
      getDimensions res w h = (1920, 1080)) := by
  refine ⟨fun res w1 h1 w2 h2 => rfl, fun res w h h1 h2 h3 => ?_⟩
  simp [getDimensions, h1, h2, h3]

/-- Witness for C10 at a concrete out-of-table resolution string. -/
theorem getDimensions_independent_witness :
    getDimensions "8K" 7 9 = (1920, 1080) :=
  getDimensions_independent.2 "8K" 7 9 (by decide) (by decide) (by decide)

/-- C2: the negotiator selects the high-quality profile (bitrate 40 Mb/s for
UHD, 15 Mb/s otherwise) exactly when the probe reports `supported = true`,
and the baseline 10 Mb/s profile otherwise; a probe that throws also yields
the baseline profile, and the probe outcome never changes the result of the
conversion call (non-propagation). -/
theorem selectConfig_spec :
    (∀ (res : String) (w h : ℤ) (fps : ℕ),
      selectConfig res w h fps (.ok true) = highProfileConfig res w h fps ∧
      (selectConfig res w h fps (.ok true)).bitrate
        = (if res = Resolution.UHD then 40000000 else 15000000) ∧
      selectConfig res w h fps (.ok false) = mainProfileConfig w h fps ∧
      selectConfig res w h fps .exn = mainProfileConfig w h fps ∧
      (mainProfileConfig w h fps).bitrate = 10000000) ∧
    (∀ (animationData : LottieFile) (options : ConvertOptions) (env : Env)
        (p q : ProbeResult),
      (renderAndConvert animationData options
        { env with probe := p }).2
      = (renderAndConvert animationData options
        { env with probe := q }).2) := by
  constructor
  · exact fun res w h fps => ⟨rfl, rfl, rfl, rfl, rfl⟩
  · intro animationData options env p q
    obtain ⟨hv, ctx, pr, svg⟩ := env
    cases hv
    · rfl
    · cases ctx
      · rfl
      · show (convertBody animationData options ⟨true, true, p, svg⟩ _ _).2
          = (convertBody animationData options ⟨true, true, q, svg⟩ _ _).2
        simp only [convertBody]
        split
        · rfl
        · cases hl : (encodeLoop options.fps
              (totalOutputFrames animationData options.fps).toNat svg 0).2 <;>
            simp only [hl]

/-- C4: the keyframe flag submitted to the encoder is true exactly when
`i mod (targetFps × 2) = 0`, i.e. at the multiples of `targetFps × 2`. -/
theorem keyFrame_iff (i fps : ℕ) (h : 0 < fps) :
    keyFrame i fps = true ↔ ∃ k, i = fps * 2 * k := by
  rw [keyFrame, decide_eq_true_iff, ← Nat.dvd_iff_mod_eq_zero]
  exact Iff.rfl

/-- Witness for C4: at `targetFps = 30`, frame 60 is a keyframe. -/
theorem keyFrame_iff_witness :
    0 < 30 ∧ (keyFrame 60 30 = true ↔ ∃ k, 60 = 30 * 2 * k) :=
  ⟨by decide, keyFrame_iff 60 30 (by decide)⟩

/-- `round` is monotone over `ℚ`. -/
lemma round_mono_q {x y : ℚ} (h : x ≤ y) : round x ≤ round y := by
  rw [round_eq, round_eq]
  exact Int.floor_mono (by linarith)

/-- `round` separates points at least one apart. -/
lemma round_lt_round_of_add_le {x y : ℚ} (h : x + 1 ≤ y) : round x < round y := by
  have h1 : (round x : ℚ) ≤ x + 1 / 2 := round_le_add_half x
  have h2 : y - 1 / 2 < (round y : ℚ) := sub_half_lt_round y
  exact_mod_cast show (round x : ℚ) < (round y : ℚ) by linarith

/-- C3: for a valid timing plan the source sample time of output frame `i` is
`(i / totalOutputFrames) × sourceTotalFrames`; the mapping is monotonically
non-decreasing in `i`, `sample(0) = 0`, and
`sample(totalOutputFrames − 1) ≤ sourceTotalFrames`. -/
theorem lottieFrame_spec (total : ℕ) (S : ℚ) (htotal : 1 ≤ total) (hS : 0 ≤ S) :
    (∀ i j : ℕ, i ≤ j → lottieFrame i total S ≤ lottieFrame j total S) ∧
    lottieFrame 0 total S = 0 ∧
    lottieFrame (total - 1) total S ≤ S := by
  have ht : (0 : ℚ) < (total : ℚ) := by exact_mod_cast htotal
  refine ⟨fun i j hij => ?_, by simp [lottieFrame], ?_⟩
  · exact mul_le_mul_of_nonneg_right
      ((div_le_div_iff_of_pos_right ht).mpr (by exact_mod_cast hij)) hS
  · have h1 : ((total - 1 : ℕ) : ℚ) ≤ (total : ℚ) := by
      exact_mod_cast Nat.sub_le total 1
    exact mul_le_of_le_one_left hS ((div_le_one ht).mpr h1)

/-- Witness for C3 at `totalOutputFrames = 2`, `sourceTotalFrames = 5`. -/
theorem lottieFrame_spec_witness : lottieFrame 1 2 (5 : ℚ) ≤ 5 :=
  (lottieFrame_spec 2 5 (by decide) (by decide)).2.2

/-- When every frame finds a render surface, the encode loop succeeds and its
trace is the concatenation of the per-frame event blocks. -/
lemma encodeLoopAux_allFound (fps total : ℕ) :
    ∀ fuel i, encodeLoopAux fps total (fun _ => true) fuel i
      = (((List.range' i fuel).map (frameEvents fps total)).flatten, Except.ok ()) := by
  intro fuel
  induction fuel with
  | zero => intro i; rfl
  | succ n ih =>
    intro i
    rw [encodeLoopAux, ih (i + 1), List.range'_succ]
    simp

/-- The full-loop trace, in closed form. -/
lemma encodeLoop_trace_closed (fps total : ℕ) :
    encodeLoop fps total (fun _ => true) 0
      = (((List.range total).map (frameEvents fps total)).flatten, Except.ok ()) := by
  rw [List.range_eq_range', encodeLoop, Nat.sub_zero]
  exact encodeLoopAux_allFound fps total total 0

/-- `encodeTimestampsOf` distributes over append. -/
lemma encodeTimestampsOf_append (xs ys : List Event) :
    encodeTimestampsOf (xs ++ ys) = encodeTimestampsOf xs ++ encodeTimestampsOf ys :=
  List.filterMap_append xs ys _

/-- `progressPercentsOf` distributes over append. -/
lemma progressPercentsOf_append (xs ys : List Event) :
    progressPercentsOf (xs ++ ys) = progressPercentsOf xs ++ progressPercentsOf ys :=
  List.filterMap_append xs ys _

/-- One frame block submits exactly one timestamp. -/
lemma encodeTimestampsOf_frameEvents (fps total i : ℕ) :
    encodeTimestampsOf (frameEvents fps total i) = [timestamp i fps] := by
  unfold encodeTimestampsOf frameEvents
  split <;> rfl

/-- One frame block emits a progress callback exactly on every 5th frame and
on the final frame. -/
lemma progressPercentsOf_frameEvents (fps total i : ℕ) :
    progressPercentsOf (frameEvents fps total i)
      = if i % 5 = 0 ∨ i = total - 1 then [loopPct i total] else [] := by
  unfold progressPercentsOf frameEvents
  split <;> rfl

/-- Timestamps of a concatenation of frame blocks. -/
lemma encodeTimestampsOf_flatten (fps total : ℕ) (l : List ℕ) :
    encodeTimestampsOf ((l.map (frameEvents fps total)).flatten)
      = l.map fun i => timestamp i fps := by
  induction l with
  | nil => rfl
  | cons a l ih =>
    rw [List.map_cons, List.flatten_cons, encodeTimestampsOf_append,
      encodeTimestampsOf_frameEvents, ih, List.map_cons, List.singleton_append]

/-- C6: the presentation timestamp of output frame `i` is
`round(i × (1,000,000 / targetFps))` microseconds, and for each supported
target fps the timestamp sequence submitted to the encoder during the loop is
strictly increasing in `i`. -/
theorem timestamp_spec (fps : ℕ) (hfps : fps = 30 ∨ fps = 60 ∨ fps = 120) :
    (∀ i : ℕ, timestamp i fps = round ((i : ℚ) * (1000000 / (fps : ℚ)))) ∧
    (∀ i j : ℕ, i < j → timestamp i fps < timestamp j fps) ∧
    (∀ total : ℕ,
      encodeTimestampsOf (encodeLoop fps total (fun _ => true) 0).1
        = (List.range total).map (fun i => timestamp i fps) ∧
      List.Chain' (· < ·)
        (encodeTimestampsOf (encodeLoop fps total (fun _ => true) 0).1)) := by
  have hΔ : (2 : ℚ) ≤ 1000000 / (fps : ℚ) := by
    rcases hfps with h | h | h <;> subst h <;> norm_num
  have hmono : ∀ i j : ℕ, i < j → timestamp i fps < timestamp j fps := by
    intro i j hij
    apply round_lt_round_of_add_le
    have hij' : (i : ℚ) + 1 ≤ (j : ℚ) := by exact_mod_cast hij
    have e1 : ((i : ℚ) + 1) * frameIntervalMicroseconds fps
        ≤ (j : ℚ) * frameIntervalMicroseconds fps :=
      mul_le_mul_of_nonneg_right hij' (by unfold frameIntervalMicroseconds; linarith)
    rw [add_mul, one_mul] at e1
    unfold frameIntervalMicroseconds at e1 ⊢
    linarith
  refine ⟨fun i => rfl, hmono, fun total => ?_⟩
  rw [encodeLoop_trace_closed, encodeTimestampsOf_flatten]
  refine ⟨rfl, List.Pairwise.chain' ?_⟩
  exact (List.pairwise_lt_range total).map _ fun a b hab => hmono a b hab

/-- Witness for C6 at `targetFps = 30`: timestamps strictly increase from
frame 5 to frame 7. -/
theorem timestamp_spec_witness : timestamp 5 30 < timestamp 7 30 :=
  (timestamp_spec 30 (Or.inl rfl)).2.1 5 7 (by norm_num)

/-- A sample animation document: 1 s at 30 fps. -/
def sampleDoc : LottieFile := ⟨30, 0, 30, 512, 512⟩

/-- A document with `outPoint = inPoint` (empty playable range). -/
def zeroDoc : LottieFile := ⟨30, 10, 10, 512, 512⟩

/-- FHD at 30 fps. -/
def sampleOptions : ConvertOptions := ⟨Resolution.FHD, 30⟩

/-- An environment with full platform support. -/
def goodEnv : Env := ⟨true, true, .ok true, fun _ => true⟩

/-- An environment without the WebCodecs `VideoEncoder` API. -/
def noEncoderEnv : Env := ⟨false, true, .ok true, fun _ => true⟩

/-- C8: when the `VideoEncoder` API is absent the conversion fails with the
encoding-unsupported error and the trace is empty — no render container is
created, no animation is loaded, and no frame is rasterized. -/
theorem renderAndConvert_encodingUnsupported
    (animationData : LottieFile) (options : ConvertOptions) (env : Env)
    (h : env.hasVideoEncoder = false) :
    renderAndConvert animationData options env
      = ([], .error .encodingUnsupported) := by
  simp [renderAndConvert, h]

/-- Witness for C8 at concrete inputs. -/
theorem renderAndConvert_encodingUnsupported_witness :
    renderAndConvert sampleDoc sampleOptions noEncoderEnv
      = ([], .error .encodingUnsupported) :=
  renderAndConvert_encodingUnsupported sampleDoc sampleOptions noEncoderEnv rfl

/-- The encode loop can only fail with `renderSurfaceMissing`. -/
lemma encodeLoopAux_snd_ne_invalidDuration (fps total : ℕ) (svg : ℕ → Bool) :
    ∀ fuel i,
      (encodeLoopAux fps total svg fuel i).2 ≠ Except.error ConvError.invalidDuration := by
  intro fuel
  induction fuel with
  | zero => intro i; simp [encodeLoopAux]
  | succ n ih =>
    intro i
    rw [encodeLoopAux]
    cases hsvg : svg i
    · simp
    · simpa using ih (i + 1)

/-- The encode loop can only fail with `renderSurfaceMissing`. -/
lemma encodeLoop_snd_ne_invalidDuration (fps total : ℕ) (svg : ℕ → Bool) :
    ∀ n i, total - i = n →
      (encodeLoop fps total svg i).2 ≠ Except.error ConvError.invalidDuration := by
  intro n i _
  rw [encodeLoop]
  exact encodeLoopAux_snd_ne_invalidDuration fps total svg (total - i) i

/-- Under a working platform, the result of the call is the result of the
`try` body. -/
lemma renderAndConvert_snd (animationData : LottieFile) (options : ConvertOptions)
    (env : Env) (hv : env.hasVideoEncoder = true) (hctx : env.canvasCtxOk = true) :
    (renderAndConvert animationData options env).2
      = (convertBody animationData options env
          (getDimensions options.resolution animationData.w animationData.h).1
          (getDimensions options.resolution animationData.w animationData.h).2).2 := by
  simp [renderAndConvert, hv, hctx]

/-- C1: under a working platform, the conversion computes
`totalOutputFrames = ⌈((outPoint − inPoint) / frameRate) × targetFps⌉`; it
fails with the invalid-duration error exactly when `totalOutputFrames ≤ 0` —
in particular when `outPoint = inPoint` — and in that case no frame is
rasterized. -/
theorem renderAndConvert_invalidDuration
    (animationData : LottieFile) (options : ConvertOptions) (env : Env)
    (hfr : 0 < animationData.fr)
    (hv : env.hasVideoEncoder = true) (hctx : env.canvasCtxOk = true) :
    totalOutputFrames animationData options.fps
        = ⌈(animationData.op - animationData.ip) / animationData.fr
            * (options.fps : ℚ)⌉ ∧
    ((renderAndConvert animationData options env).2
        = .error .invalidDuration
      ↔ totalOutputFrames animationData options.fps ≤ 0) ∧
    (animationData.op = animationData.ip
      → (renderAndConvert animationData options env).2 = .error .invalidDuration) ∧
    (totalOutputFrames animationData options.fps ≤ 0
      → ∀ i, Event.rasterize i ∉ (renderAndConvert animationData options env).1) := by
  have hfr' : animationData.fr ≠ 0 := ne_of_gt hfr
  have hform : totalOutputFrames animationData options.fps
      = ⌈(animationData.op - animationData.ip) / animationData.fr
          * (options.fps : ℚ)⌉ := by
    simp [totalOutputFrames, durationSeconds, animTotalFrames, frameRateEff, hfr']
  have hiff : (renderAndConvert animationData options env).2
      = .error .invalidDuration
      ↔ totalOutputFrames animationData options.fps ≤ 0 := by
    rw [renderAndConvert_snd animationData options env hv hctx]
    constructor
    · intro hres
      by_contra hn
      rcases hl : (encodeLoop options.fps
          (totalOutputFrames animationData options.fps).toNat env.svgFound 0).2 with e | u
      · simp only [convertBody, if_neg hn, hl] at hres
        have he : e = ConvError.invalidDuration := by simpa using hres
        exact encodeLoop_snd_ne_invalidDuration options.fps
          (totalOutputFrames animationData options.fps).toNat env.svgFound
          ((totalOutputFrames animationData options.fps).toNat - 0) 0 rfl
          (by rw [hl, he])
      · simp only [convertBody, if_neg hn, hl] at hres
        simp at hres
    · intro hn
      simp [convertBody, hn]
  refine ⟨hform, hiff, fun hop => ?_, fun hn i => ?_⟩
  · refine hiff.mpr ?_
    have : totalOutputFrames animationData options.fps = 0 := by
      simp [totalOutputFrames, durationSeconds, animTotalFrames, hop]
    omega
  · simp [renderAndConvert, convertBody, hv, hctx, hn]

/-- Witness for C1: `outPoint = inPoint` yields the invalid-duration error on
a supported platform. -/
theorem renderAndConvert_invalidDuration_witness :
    (renderAndConvert zeroDoc sampleOptions goodEnv).2 = .error .invalidDuration :=
  (renderAndConvert_invalidDuration zeroDoc sampleOptions goodEnv
    (by norm_num [zeroDoc]) rfl rfl).2.2.1 rfl

/-- C9: on every exit path of one conversion call — success, early return, or
thrown error — an animation instance that was created is destroyed, and a
render container that was added to the document is removed, before the call
returns. -/
theorem renderAndConvert_cleanup
    (animationData : LottieFile) (options : ConvertOptions) (env : Env) :
    (Event.animCreated ∈ (renderAndConvert animationData options env).1
      → Event.animDestroyed ∈ (renderAndConvert animationData options env).1) ∧
    (Event.containerAdded ∈ (renderAndConvert animationData options env).1
      → Event.containerRemoved ∈ (renderAndConvert animationData options env).1) := by
  obtain ⟨hv, ctx, pr, svg⟩ := env
  cases hv <;> cases ctx <;> constructor <;> intro h <;>
    simp_all [renderAndConvert]

/-- Witness for C9: on an error path (invalid duration) the container is
still removed. -/
theorem renderAndConvert_cleanup_witness :
    Event.containerRemoved ∈ (renderAndConvert zeroDoc sampleOptions goodEnv).1 :=
  (renderAndConvert_cleanup zeroDoc sampleOptions goodEnv).2 (by decide)

/-- The loop progress percentage is monotone in the frame index. -/
lemma loopPct_mono (i j total : ℕ) (hij : i ≤ j) (ht : 1 ≤ total) :
    loopPct i total ≤ loopPct j total := by
  unfold loopPct
  have ht' : (0 : ℚ) < (total : ℚ) := by exact_mod_cast ht
  have hx : ((i : ℚ) / (total : ℚ)) * 85 ≤ ((j : ℚ) / (total : ℚ)) * 85 :=
    mul_le_mul_of_nonneg_right
      ((div_le_div_iff_of_pos_right ht').mpr (by exact_mod_cast hij)) (by norm_num)
  exact add_le_add_left (round_mono_q hx) 10

/-- The loop progress percentage stays within `[10, 95]`. -/
lemma loopPct_bounds (i total : ℕ) (hi : i < total) :
    10 ≤ loopPct i total ∧ loopPct i total ≤ 95 := by
  have ht' : (0 : ℚ) < (total : ℚ) := by
    exact_mod_cast show 0 < total by omega
  unfold loopPct
  constructor
  · have h0 : (0 : ℚ) ≤ ((i : ℚ) / (total : ℚ)) * 85 := by positivity
    have hr := round_mono_q h0
    rw [round_zero] at hr
    omega
  · have hle : ((i : ℚ) / (total : ℚ)) ≤ 1 :=
      (div_le_one ht').mpr (by exact_mod_cast le_of_lt hi)
    have hx : ((i : ℚ) / (total : ℚ)) * 85 ≤ (((85 : ℤ) : ℚ)) := by
      push_cast
      exact mul_le_of_le_one_left (by norm_num) hle
    have hr := round_mono_q hx
    rw [round_intCast] at hr
    omega

/-- Progress percentages of a concatenation of frame blocks: one value per
frame index that is a multiple of 5 or final. -/
lemma progressPercentsOf_flatten (fps total : ℕ) (l : List ℕ) :
    progressPercentsOf ((l.map (frameEvents fps total)).flatten)
      = (l.filter fun i => decide (i % 5 = 0 ∨ i = total - 1)).map
          fun i => loopPct i total := by
  induction l with
  | nil => rfl
  | cons a l ih =>
    rw [List.map_cons, List.flatten_cons, progressPercentsOf_append,
      progressPercentsOf_frameEvents, ih, List.filter_cons]
    by_cases hc : a % 5 = 0 ∨ a = total - 1
    · simp [hc]
    · simp [hc]

/-- On a fully working platform with a positive frame plan, the conversion
succeeds and the percent sequence handed to the progress callback is
5, 10, the loop reports, then 98. -/
lemma renderAndConvert_success
    (animationData : LottieFile) (options : ConvertOptions) (env : Env)
    (hv : env.hasVideoEncoder = true) (hctx : env.canvasCtxOk = true)
    (hsvg : env.svgFound = fun _ => true)
    (hn : 0 < totalOutputFrames animationData options.fps) :
    (renderAndConvert animationData options env).2 = Except.ok () ∧
    progressPercentsOf (renderAndConvert animationData options env).1
      = 5 :: 10 ::
        ((((List.range (totalOutputFrames animationData options.fps).toNat).filter
            fun i => decide (i % 5 = 0
              ∨ i = (totalOutputFrames animationData options.fps).toNat - 1)).map
          fun i => loopPct i (totalOutputFrames animationData options.fps).toNat)
          ++ [98]) := by
  have hnle : ¬totalOutputFrames animationData options.fps ≤ 0 := not_le.mpr hn
  simp only [renderAndConvert, hv, hctx, if_true]
  simp only [convertBody, if_neg hnle, hsvg, encodeLoop_trace_closed]
  constructor
  · trivial
  · simp only [progressPercentsOf_append, progressPercentsOf_flatten]
    simp [progressPercentsOf]

/-- The full percent sequence of a successful conversion is non-decreasing. -/
lemma percents_chain (total : ℕ) (ht : 1 ≤ total) :
    List.Chain' (· ≤ ·)
      ((5 : ℤ) :: 10 ::
        ((((List.range total).filter
            fun i => decide (i % 5 = 0 ∨ i = total - 1)).map
          fun i => loopPct i total) ++ [98])) := by
  apply List.Pairwise.chain'
  have hmem : ∀ p ∈ (((List.range total).filter
      fun i => decide (i % 5 = 0 ∨ i = total - 1)).map
        fun i => loopPct i total), 10 ≤ p ∧ p ≤ 95 := by
    intro p hp
    rcases List.mem_map.mp hp with ⟨i, hi, rfl⟩
    exact loopPct_bounds i total (List.mem_range.mp (List.mem_filter.mp hi).1)
  refine List.pairwise_cons.mpr ⟨?_, List.pairwise_cons.mpr ⟨?_, ?_⟩⟩
  · intro b hb
    rcases List.mem_cons.mp hb with rfl | hb
    · norm_num
    · rcases List.mem_append.mp hb with hb | hb
      · linarith [(hmem b hb).1]
      · rcases List.mem_singleton.mp hb with rfl
        norm_num
  · intro b hb
    rcases List.mem_append.mp hb with hb | hb
    · exact (hmem b hb).1
    · rcases List.mem_singleton.mp hb with rfl
      norm_num
  · rw [List.pairwise_append]
    refine ⟨?_, by simp, ?_⟩
    · exact ((List.pairwise_lt_range total).filter _).map _
        fun a b hab => loopPct_mono a b total (le_of_lt hab) ht
    · intro a ha b hb
      rcases List.mem_singleton.mp hb with rfl
      linarith [(hmem a ha).2]

/-- C7 (amended): during the encode loop a progress callback fires exactly at
every 5th frame index and at the final frame, with
`percent = 10 + round((i / totalOutputFrames) × 85)`; across one successful
conversion the percent values passed to the callback are integers in
`[0, 100]` and monotonically non-decreasing; the terminal callback on success
reports 98 (`Finalizing Video...`), not 100 — the conversion itself never
passes 100 to the callback. -/
theorem renderAndConvert_progress_spec
    (animationData : LottieFile) (options : ConvertOptions) (env : Env)
    (hv : env.hasVideoEncoder = true) (hctx : env.canvasCtxOk = true)
    (hsvg : env.svgFound = fun _ => true)
    (hn : 0 < totalOutputFrames animationData options.fps) :
    (renderAndConvert animationData options env).2 = Except.ok () ∧
    progressPercentsOf (renderAndConvert animationData options env).1
      = 5 :: 10 ::
        ((((List.range (totalOutputFrames animationData options.fps).toNat).filter
            fun i => decide (i % 5 = 0
              ∨ i = (totalOutputFrames animationData options.fps).toNat - 1)).map
          fun i => loopPct i (totalOutputFrames animationData options.fps).toNat)
          ++ [98]) ∧
    (∀ p ∈ progressPercentsOf (renderAndConvert animationData options env).1,
      0 ≤ p ∧ p ≤ 100) ∧
    List.Chain' (· ≤ ·)
      (progressPercentsOf (renderAndConvert animationData options env).1) ∧
    (progressPercentsOf (renderAndConvert animationData options env).1).getLast?
      = some 98 := by
  obtain ⟨hok, hpp⟩ := renderAndConvert_success animationData options env hv hctx hsvg hn
  have htot : 1 ≤ (totalOutputFrames animationData options.fps).toNat := by omega
  have hmem : ∀ p ∈ (((List.range (totalOutputFrames animationData options.fps).toNat).filter
      fun i => decide (i % 5 = 0
        ∨ i = (totalOutputFrames animationData options.fps).toNat - 1)).map
        fun i => loopPct i (totalOutputFrames animationData options.fps).toNat),
      10 ≤ p ∧ p ≤ 95 := by
    intro p hp
    rcases List.mem_map.mp hp with ⟨i, hi, rfl⟩
    exact loopPct_bounds i _ (List.mem_range.mp (List.mem_filter.mp hi).1)
  refine ⟨hok, hpp, ?_, ?_, ?_⟩
  · intro p hp
    rw [hpp] at hp
    rcases List.mem_cons.mp hp with rfl | hp
    · norm_num
    rcases List.mem_cons.mp hp with rfl | hp
    · norm_num
    rcases List.mem_append.mp hp with hp | hp
    · have := hmem p hp
      omega
    · rcases List.mem_singleton.mp hp with rfl
      norm_num
  · rw [hpp]
    exact percents_chain _ htot
  · rw [hpp]
    show ((((5 : ℤ) :: 10 ::
        (((List.range (totalOutputFrames animationData options.fps).toNat).filter
            fun i => decide (i % 5 = 0
              ∨ i = (totalOutputFrames animationData options.fps).toNat - 1)).map
          fun i => loopPct i (totalOutputFrames animationData options.fps).toNat))
        ++ [98]).getLast? = some (98 : ℤ))
    exact List.getLast?_concat _

/-- A 1-frame document (1 source frame at 1 fps). -/
def oneFrameDoc : LottieFile := ⟨1, 0, 1, 100, 100⟩

/-- FHD at 1 fps. -/
def oneFpsOptions : ConvertOptions := ⟨Resolution.FHD, 1⟩

/-- `oneFrameDoc` at 1 fps yields exactly one output frame. -/
lemma totalOutputFrames_oneFrameDoc : totalOutputFrames oneFrameDoc 1 = 1 := by
  norm_num [totalOutputFrames, durationSeconds, animTotalFrames, frameRateEff,
    oneFrameDoc]

/-- Counterexample for C7 as stated: a successful conversion whose final
progress callback reports 98, not 100 — no callback of the conversion ever
reports 100. -/
theorem renderAndConvert_progress_counterexample :
    (renderAndConvert oneFrameDoc oneFpsOptions goodEnv).2 = Except.ok () ∧
    progressPercentsOf (renderAndConvert oneFrameDoc oneFpsOptions goodEnv).1
      = [5, 10, 10, 98] ∧
    (progressPercentsOf (renderAndConvert oneFrameDoc oneFpsOptions goodEnv).1).getLast?
      ≠ some 100 := by
  obtain ⟨hok, hpp⟩ := renderAndConvert_success oneFrameDoc oneFpsOptions goodEnv
    rfl rfl rfl (by rw [show totalOutputFrames oneFrameDoc oneFpsOptions.fps = 1 from
      totalOutputFrames_oneFrameDoc]; norm_num)
  rw [show totalOutputFrames oneFrameDoc oneFpsOptions.fps = 1 from
    totalOutputFrames_oneFrameDoc] at hpp
  have hlist : progressPercentsOf (renderAndConvert oneFrameDoc oneFpsOptions goodEnv).1
      = [5, 10, 10, 98] := by
    rw [hpp]
    norm_num [List.range_succ, loopPct]
  refine ⟨hok, hlist, ?_⟩
  rw [hlist]
  simp

/-- Witness for the amended C7 at concrete inputs: the terminal callback of a
successful conversion reports 98. -/
theorem renderAndConvert_progress_spec_witness :
    (progressPercentsOf (renderAndConvert sampleDoc sampleOptions goodEnv).1).getLast?
      = some 98 :=
  (renderAndConvert_progress_spec sampleDoc sampleOptions goodEnv rfl rfl rfl
    (by norm_num [totalOutputFrames, durationSeconds, animTotalFrames, frameRateEff,
      sampleDoc, sampleOptions])).2.2.2.2
